import Mathlib

/-!
Verification of the IAPS utility module (`iaps.py`): reading the affective
scoring table, resolving image filenames, and sampling image filenames by
valence thresholds.

The embedding models the file as its list of lines, pandas numeric cells as
rationals, missing cells as `none`, and the ambient global random state as an
explicit `entropy` argument that a provided `random_state` seed overrides.
-/

namespace Iaps

/-- Errors surfaced by the module: malformed lines or numeric fields
(`parseError`), integer conversion applied to a missing value
(`valueError`, python `int(nan)` or a failed `astype(int)`), slicing a
missing set field (`typeError`, python `nan[:-1]`), and oversized sample
requests (`invalidArgument`, pandas `sample` with `n` larger than the
population when sampling without replacement). -/
inductive IapsError where
  | parseError : IapsError
  | valueError : IapsError
  | typeError : IapsError
  | invalidArgument : IapsError
deriving DecidableEq, Repr

instance instDecEqExcept {ε α : Type} [DecidableEq ε] [DecidableEq α] :
    DecidableEq (Except ε α) := fun a b =>
  match a, b with
  | Except.ok x, Except.ok y =>
    if h : x = y then Decidable.isTrue (by rw [h])
    else Decidable.isFalse (by intro hc; cases hc; exact h rfl)
  | Except.error x, Except.error y =>
    if h : x = y then Decidable.isTrue (by rw [h])
    else Decidable.isFalse (by intro hc; cases hc; exact h rfl)
  | Except.ok _, Except.error _ => Decidable.isFalse (by intro hc; cases hc)
  | Except.error _, Except.ok _ => Decidable.isFalse (by intro hc; cases hc)

def tabChar : Char := '\t'

def dotChar : Char := '.'

def naStr : String := "."

def emptyStr : String := ""

def slashStr : String := "/"

/-- Split a character list at every occurrence of `c`; a tab-separated
line splits into its fields this way. -/
def splitChar (c : Char) : List Char → List (List Char)
  | [] => [[]]
  | x :: xs =>
    if x = c then [] :: splitChar c xs
    else
      match splitChar c xs with
      | [] => [[x]]
      | y :: ys => (x :: y) :: ys

/-- The tab-separated fields of one data line. -/
def fieldsOf (line : String) : List String :=
  (splitChar tabChar line.data).map String.mk

def digitVal (c : Char) : Nat := c.toNat - 48

def digitsToNat (cs : List Char) : Nat :=
  cs.foldl (fun a c => a * 10 + digitVal c) 0

def allDigits (cs : List Char) : Bool := cs.all Char.isDigit

/-- An exact decimal number `num / 10 ^ exp`, the value of one numeric
cell of the table. -/
structure Dec where
  num : Int
  exp : Nat
deriving DecidableEq, Repr

/-- The rational value of a decimal cell. -/
def Dec.toRat (d : Dec) : ℚ := (d.num : ℚ) / ((10 : ℚ) ^ d.exp)

/-- Comparison of two decimal cells, the numeric comparison the valence
filters perform, by cross multiplication. -/
def Dec.le (a b : Dec) : Bool :=
  decide (a.num * (10 : Int) ^ b.exp ≤ b.num * (10 : Int) ^ a.exp)

/-- Numeric parsing of one cell, as pandas parses a float column:
optional sign, decimal digits, and an optional fractional part. -/
def pyFloat (s : String) : Option Dec :=
  let (neg, cs) :=
    match s.data with
    | '-' :: rest => (true, rest)
    | '+' :: rest => (false, rest)
    | cs => (false, cs)
  let signed : Nat → Int := fun v => if neg then -(v : Int) else (v : Int)
  match splitChar dotChar cs with
  | [a] =>
    if !a.isEmpty && allDigits a then some ⟨signed (digitsToNat a), 0⟩
    else none
  | [a, b] =>
    if (!a.isEmpty || !b.isEmpty) && allDigits a && allDigits b then
      some ⟨signed (digitsToNat a * 10 ^ b.length + digitsToNat b), b.length⟩
    else none
  | _ => none

/-- Integer conversion of a string, as python `int`: optional sign and
decimal digits. -/
def pyInt (s : String) : Option Int :=
  let (neg, ds) :=
    match s.data with
    | '-' :: rest => (true, rest)
    | '+' :: rest => (false, rest)
    | cs => (false, cs)
  if !ds.isEmpty && allDigits ds then
    some (if neg then -(digitsToNat ds : Int) else (digitsToNat ds : Int))
  else none

/-- Missing-value handling of pandas `read_csv` with the dot marker added
to `na_values`: the dot marker and an empty field read as missing. -/
def naify (s : String) : Option String :=
  if s = naStr ∨ s = emptyStr then none else some s

/-- One numeric cell of the table: missing stays missing, otherwise the
text must parse as a number. -/
def floatCell (s : String) : Except IapsError (Option Dec) :=
  match naify s with
  | none => Except.ok none
  | some t =>
    match pyFloat t with
    | some q => Except.ok (some q)
    | none => Except.error IapsError.parseError

/-- One row of the scoring table, with the 11 named columns of the
source; the type of the identifier column and of the set column change
as the two cleanup passes run. -/
structure Row (ι σ : Type) where
  desc : Option String
  IAPS : ι
  valmn : Option Dec
  valsd : Option Dec
  aromn : Option Dec
  arosd : Option Dec
  dom1mn : Option Dec
  dom1sd : Option Dec
  dom2mn : Option Dec
  dom2sd : Option Dec
  set : σ
deriving DecidableEq, Repr

/-- A row as `read_csv` delivers it, before either cleanup pass. -/
abbrev RawRow := Row (Option Dec) (Option String)

/-- A row after the set-column cleanup. -/
abbrev MidRow := Row (Option Dec) Int

/-- A fully cleaned row of the scoring table. -/
abbrev ScoringRow := Row String Int

def Row.withSet {ι σ σ' : Type} (r : Row ι σ) (v : σ') : Row ι σ' :=
  { desc := r.desc, IAPS := r.IAPS, valmn := r.valmn, valsd := r.valsd,
    aromn := r.aromn, arosd := r.arosd, dom1mn := r.dom1mn,
    dom1sd := r.dom1sd, dom2mn := r.dom2mn, dom2sd := r.dom2sd, set := v }

def Row.withIAPS {ι σ ι' : Type} (r : Row ι σ) (x : ι') : Row ι' σ :=
  { desc := r.desc, IAPS := x, valmn := r.valmn, valsd := r.valsd,
    aromn := r.aromn, arosd := r.arosd, dom1mn := r.dom1mn,
    dom1sd := r.dom1sd, dom2mn := r.dom2mn, dom2sd := r.dom2sd, set := r.set }

/-- Parse one data line: split on tabs into the 11 named columns
`desc IAPS valmn valsd aromn arosd dom1mn dom1sd dom2mn dom2sd set`,
apply the missing-value marker, and parse the numeric columns, as
pandas `read_csv` does with these explicit names, a tab separator, 7
skipped rows and the dot as NA marker. -/
def parseLine (line : String) : Except IapsError RawRow := do
  let fs := fieldsOf line
  if h : fs.length = 11 then
    let iapsRaw ← floatCell (fs.get ⟨1, by omega⟩)
    let a2 ← floatCell (fs.get ⟨2, by omega⟩)
    let a3 ← floatCell (fs.get ⟨3, by omega⟩)
    let a4 ← floatCell (fs.get ⟨4, by omega⟩)
    let a5 ← floatCell (fs.get ⟨5, by omega⟩)
    let a6 ← floatCell (fs.get ⟨6, by omega⟩)
    let a7 ← floatCell (fs.get ⟨7, by omega⟩)
    let a8 ← floatCell (fs.get ⟨8, by omega⟩)
    let a9 ← floatCell (fs.get ⟨9, by omega⟩)
    Except.ok
      { desc := naify (fs.get ⟨0, by omega⟩), IAPS := iapsRaw,
        valmn := a2, valsd := a3, aromn := a4, arosd := a5,
        dom1mn := a6, dom1sd := a7, dom2mn := a8, dom2sd := a9,
        set := naify (fs.get ⟨10, by omega⟩) }
  else Except.error IapsError.parseError

/-- The raw set field with exactly its last character removed, the
python slice `item[:-1]` on a string. -/
def strDropLast (s : String) : String := String.mk s.data.dropLast

/-- Cleanup of the set column, source lines 68-69: drop the trailing
character of each field (the stray backslash) and convert to integer.
A missing value is a float NaN there, so slicing it raises a type
error; a failed integer conversion raises a value error. -/
def cleanSet (r : RawRow) : Except IapsError MidRow :=
  match r.set with
  | none => Except.error IapsError.typeError
  | some s =>
    match pyInt (strDropLast s) with
    | some v => Except.ok (r.withSet v)
    | none => Except.error IapsError.valueError

/-- Truncation of a rational toward zero, python `int` on a float. -/
def truncQ (q : ℚ) : Int := if 0 ≤ q then ⌊q⌋ else ⌈q⌉

/-- Truncation of a decimal cell toward zero, python `int` on the raw
identifier value; integer T-division truncates toward zero. -/
def truncDec (d : Dec) : Int := Int.tdiv d.num ((10 : Int) ^ d.exp)

/-- Whether the integer truncation of a decimal cell equals its value
exactly, the branch condition of the identifier normalization. -/
def isIntDec (d : Dec) : Bool :=
  decide (d.num = truncDec d * (10 : Int) ^ d.exp)

/-- Rounding of the fraction `a / b` (with `b` positive) to the nearest
integer with ties to even, as the `%.1f` formatting rounds the scaled
value. -/
def roundHalfEvenFrac (a b : Int) : Int :=
  let f := Int.ediv a b
  let r2 := 2 * (a - f * b)
  if r2 < b then f
  else if b < r2 then f + 1
  else if Int.emod f 2 = 0 then f else f + 1

/-- Decimal rendering with exactly one digit after the decimal point,
the python formatting `%.1f`. -/
def fmt1 (d : Dec) : String :=
  let m := roundHalfEvenFrac (d.num * 10) ((10 : Int) ^ d.exp)
  let sgn := if m < 0 then String.mk ['-'] else emptyStr
  sgn ++ Nat.repr (m.natAbs / 10) ++ naStr ++ Nat.repr (m.natAbs % 10)

/-- Normalization of one identifier, source lines 70-73: an identifier
whose integer truncation equals its value renders as the integer's
decimal string, any other renders with one digit after the decimal
point. -/
def normIdent (d : Dec) : String :=
  if isIntDec d then Int.repr (truncDec d) else fmt1 d

/-- Cleanup of the IAPS identifier column, source lines 70-73; a missing
identifier is a float NaN, so `int` on it raises a value error. -/
def cleanIAPS (r : MidRow) : Except IapsError ScoringRow :=
  match r.IAPS with
  | none => Except.error IapsError.valueError
  | some q => Except.ok (r.withIAPS (normIdent q))

/-- Apply a fallible conversion to every element, stopping at the first
failure, as the column-wise conversions of the source do. -/
def mapE {α β : Type} {ε : Type} (f : α → Except ε β) : List α → Except ε (List β)
  | [] => Except.ok []
  | x :: xs =>
    match f x, mapE f xs with
    | Except.ok y, Except.ok ys => Except.ok (y :: ys)
    | Except.error e, _ => Except.error e
    | Except.ok _, Except.error e => Except.error e

/-- Read the IAPS scoring table from the file's lines: skip the 7
header lines, parse each remaining line into the 11 named columns, then
run the set-column cleanup and the identifier cleanup in source order. -/
def readScoring (lines : List String) : Except IapsError (List ScoringRow) :=
  match mapE parseLine (lines.drop 7) with
  | Except.error e => Except.error e
  | Except.ok raws =>
    match mapE cleanSet raws with
    | Except.error e => Except.error e
    | Except.ok mids => mapE cleanIAPS mids

/-- Whether `suf` is a suffix of `s`, by characters. -/
def strEndsWith (s suf : String) : Bool :=
  decide (s.data.drop (s.data.length - suf.data.length) = suf.data) &&
    decide (suf.data.length ≤ s.data.length)

def startsWithSlash (s : String) : Bool :=
  match s.data with
  | '/' :: _ => true
  | _ => false

def endsWithSlash (s : String) : Bool :=
  match s.data.getLast? with
  | some '/' => true
  | _ => false

/-- Join of two path components, posix `os.path.join`. -/
def pathJoin (a b : String) : String :=
  if startsWithSlash b then b
  else if a = emptyStr then a ++ b
  else if endsWithSlash a then a ++ b
  else a ++ slashStr ++ b

def homeStr : String := "~"

def dataDirName : String := "data"

def iapsDirName : String := "IAPS 2008 1-20"

def imagesDirName : String := "IAPS 1-20 Images"

def jpgLower : String := ".jpg"

def jpgUpper : String := ".JPG"

/-- The dataset root, `join(expanduser home, data, IAPS 2008 1-20)`. -/
def IAPS_DIR : String := pathJoin (pathJoin homeStr dataDirName) iapsDirName

/-- The four identifiers whose image files carry an upper-case
extension. -/
def jpgExceptions : List String := ["6570", "6570.1", "6561", "6560"]

/-- Resolve an identifier to the image's full filename: the images
directory joined with the identifier, with the extension in upper case
exactly for the four exceptional identifiers and in lower case
otherwise. -/
def full_filename (name : String) : String :=
  let f := pathJoin (pathJoin IAPS_DIR imagesDirName) name
  if name ∈ jpgExceptions then f ++ jpgUpper else f ++ jpgLower

/-- One step of the modelled pseudo-random number generator driving the
sampler's shuffle. -/
def lcgNext (s : Nat) : Nat :=
  (6364136223846793005 * s + 1442695040888963407) % (2 ^ 64)

/-- The seed-driven shuffle, structurally recursive on a fuel bound for
the number of remaining draws. -/
def shuffleFuel {α : Type} [DecidableEq α] : Nat → Nat → List α → List α
  | 0, _, _ => []
  | fuel + 1, seed, l =>
    if h : l = [] then []
    else
      let x := l.get ⟨seed % l.length, Nat.mod_lt _ (List.length_pos.mpr h)⟩
      x :: shuffleFuel fuel (lcgNext seed) (l.erase x)

/-- Model of the numpy pseudo-random permutation behind pandas `sample`
without replacement: a deterministic seed-driven shuffle drawing one
position at a time. -/
def shuffle {α : Type} [DecidableEq α] (seed : Nat) (l : List α) : List α :=
  shuffleFuel l.length seed l

/-- Model of pandas `sample` on a column: size one when `n` is omitted
(the pandas default with no fraction given), sampling without
replacement via the seeded shuffle, an invalid-argument error when the
requested size exceeds the population, and the ambient entropy standing
in for the global random state when no seed is given. -/
def sample {α : Type} [DecidableEq α] (pop : List α) (n : Option Nat)
    (random_state : Option Nat) (entropy : Nat) : Except IapsError (List α) :=
  let k := n.getD 1
  if k ≤ pop.length then
    Except.ok ((shuffle (random_state.getD entropy) pop).take k)
  else Except.error IapsError.invalidArgument

/-- Row selection of `sample_negative_images`: valence mean at most the
threshold; a missing valence never qualifies. -/
def negPred (threshold : Dec) (r : ScoringRow) : Bool :=
  match r.valmn with
  | some v => Dec.le v threshold
  | none => false

/-- Row selection of `sample_positive_images`: valence mean at least the
threshold; a missing valence never qualifies. -/
def posPred (threshold : Dec) (r : ScoringRow) : Bool :=
  match r.valmn with
  | some v => Dec.le threshold v
  | none => false

/-- Row selection of `sample_neutral_images`: valence mean between the
two thresholds; a missing valence never qualifies. -/
def neutPred (lo hi : Dec) (r : ScoringRow) : Bool :=
  match r.valmn with
  | some v => Dec.le lo v && Dec.le v hi
  | none => false

/-- Return a sample of negative images, source lines 101-120: read the
scoring table, keep the rows with valence mean at most the threshold,
sample their identifiers, and resolve each sampled identifier to a full
filename, in sample order. -/
def sample_negative_images (lines : List String) (n : Option Nat)
    (random_state : Option Nat) (threshold : Dec) (entropy : Nat) :
    Except IapsError (List String) :=
  match readScoring lines with
  | Except.error e => Except.error e
  | Except.ok df =>
    match sample ((df.filter (negPred threshold)).map Row.IAPS) n random_state entropy with
    | Except.error e => Except.error e
    | Except.ok ids => Except.ok (ids.map full_filename)

/-- Return a sample of positive images, source lines 123-142: as the
negative sampler with the valence predicate reversed. -/
def sample_positive_images (lines : List String) (n : Option Nat)
    (random_state : Option Nat) (threshold : Dec) (entropy : Nat) :
    Except IapsError (List String) :=
  match readScoring lines with
  | Except.error e => Except.error e
  | Except.ok df =>
    match sample ((df.filter (posPred threshold)).map Row.IAPS) n random_state entropy with
    | Except.error e => Except.error e
    | Except.ok ids => Except.ok (ids.map full_filename)

/-- Return a sample of neutral images, source lines 145-174: as the
negative sampler with the valence mean required to lie between the two
thresholds. -/
def sample_neutral_images (lines : List String) (n : Option Nat)
    (random_state : Option Nat) (lo hi : Dec) (entropy : Nat) :
    Except IapsError (List String) :=
  match readScoring lines with
  | Except.error e => Except.error e
  | Except.ok df =>
    match sample ((df.filter (neutPred lo hi)).map Row.IAPS) n random_state entropy with
    | Except.error e => Except.error e
    | Except.ok ids => Except.ok (ids.map full_filename)

/-- The full processing of one data line: parse, set-column cleanup,
identifier cleanup, the composite a single row undergoes inside
`readScoring`. -/
def processLine (line : String) : Except IapsError ScoringRow :=
  match parseLine line with
  | Except.error e => Except.error e
  | Except.ok raw =>
    match cleanSet raw with
    | Except.error e => Except.error e
    | Except.ok mid => cleanIAPS mid

/-- Decimal literal 3.0, the default negative threshold. -/
def decThree : Dec := ⟨3, 0⟩

/-- Decimal literal 7.0, the default positive threshold. -/
def decSeven : Dec := ⟨7, 0⟩

/-- Decimal literal 4.0, the default lower neutral threshold. -/
def decFour : Dec := ⟨4, 0⟩

/-- Decimal literal 6.0, the default upper neutral threshold. -/
def decSix : Dec := ⟨6, 0⟩

/-- The raw identifier value 9941.0. -/
def dec9941_0 : Dec := ⟨99410, 1⟩

/-- The raw identifier value 6570.1. -/
def dec6570_1 : Dec := ⟨65701, 1⟩

def str9941 : String := "9941"

def str6570_1 : String := "6570.1"

def name1000 : String := "1000"

def name6570_0 : String := "6570.0"

def descSnake : String := "Snake"

def ident1050 : String := "1050"

def ident1710 : String := "1710"

def ident7010 : String := "7010"

/-- Seven header lines of a synthetic scoring file. -/
def headerLines : List String :=
  ["header line 1", "header line 2", "header line 3", "header line 4",
   "header line 5", "header line 6", "header line 7"]

/-- A synthetic scoring file with six data rows, three of which have
valence mean at most 3. -/
def exampleLines : List String :=
  headerLines ++
    ["Snake\t1050\t2.5\t1.0\t3.0\t1.0\t4.0\t1.0\t4.0\t1.0\t1\\",
     "Puppies\t1710\t8.34\t1.12\t5.41\t2.34\t6.64\t2.07\t6.82\t1.85\t2\\",
     "Basket\t7010\t4.94\t1.07\t1.76\t1.48\t6.49\t1.85\t6.52\t2.31\t1\\",
     "Shark\t6570.1\t2.19\t1.72\t6.0\t2.36\t3.0\t2.0\t3.5\t2.0\t19\\",
     "Mushroom\t5500\t5.42\t1.43\t3.0\t2.0\t5.0\t2.0\t5.0\t2.0\t1\\",
     "Spider\t1200\t3.0\t2.22\t6.03\t2.38\t4.0\t2.0\t4.0\t2.0\t1\\"]

/-- A synthetic scoring file with a single data row. -/
def singleLines : List String :=
  headerLines ++ ["Snake\t1050\t2.5\t1.0\t3.0\t1.0\t4.0\t1.0\t4.0\t1.0\t1\\"]

/-- The row `readScoring` produces for the single data row of
`singleLines`. -/
def exampleRow : ScoringRow :=
  { desc := some descSnake, IAPS := ident1050,
    valmn := some ⟨25, 1⟩, valsd := some ⟨10, 1⟩,
    aromn := some ⟨30, 1⟩, arosd := some ⟨10, 1⟩,
    dom1mn := some ⟨40, 1⟩, dom1sd := some ⟨10, 1⟩,
    dom2mn := some ⟨40, 1⟩, dom2sd := some ⟨10, 1⟩, set := 1 }

/-- A file whose single data row carries the missing-value marker in the
identifier column. -/
def dotIdentLines : List String :=
  headerLines ++ ["Snake\t.\t2.5\t1.0\t3.0\t1.0\t4.0\t1.0\t4.0\t1.0\t1\\"]

/-- A file whose single data row carries the missing-value marker in the
set column. -/
def dotSetLines : List String :=
  headerLines ++ ["Snake\t1050\t2.5\t1.0\t3.0\t1.0\t4.0\t1.0\t4.0\t1.0\t."]

/-- A file whose single data row carries the missing-value marker in all
eight score columns. -/
def dotScoresLines : List String :=
  headerLines ++ ["Snake\t1050\t.\t.\t.\t.\t.\t.\t.\t.\t1\\"]

/-- The row `readScoring` produces for the single data row of
`dotScoresLines`: every score is absent, no error occurs. -/
def dotScoresRow : ScoringRow :=
  { desc := some descSnake, IAPS := ident1050,
    valmn := none, valsd := none, aromn := none, arosd := none,
    dom1mn := none, dom1sd := none, dom2mn := none, dom2sd := none, set := 1 }

/-- A file whose single data line does not split into 11 fields. -/
def malformedLines : List String :=
  headerLines ++ ["not a data line"]

/-- A mid row whose identifier is missing. -/
def midRowNA : MidRow :=
  { desc := none, IAPS := none, valmn := none, valsd := none,
    aromn := none, arosd := none, dom1mn := none, dom1sd := none,
    dom2mn := none, dom2sd := none, set := 1 }

/-- A raw row whose set field is missing. -/
def rawRowNA : RawRow :=
  { desc := none, IAPS := none, valmn := none, valsd := none,
    aromn := none, arosd := none, dom1mn := none, dom1sd := none,
    dom2mn := none, dom2sd := none, set := none }

/-! ### Basic facts about the fallible column map -/

theorem mapE_ok_length {α β ε : Type} {f : α → Except ε β} :
    ∀ {xs : List α} {ys : List β}, mapE f xs = Except.ok ys → ys.length = xs.length := by
  intro xs
  induction xs with
  | nil => intro ys h; simp [mapE] at h; simp [← h]
  | cons x xs ih =>
    intro ys h
    simp only [mapE] at h
    cases hx : f x with
    | error e => rw [hx] at h; simp at h
    | ok y =>
      rw [hx] at h
      cases hxs : mapE f xs with
      | error e => rw [hxs] at h; simp at h
      | ok ys' =>
        rw [hxs] at h
        simp at h
        rw [← h]
        simp [ih hxs]

theorem mapE_ok_get {α β ε : Type} {f : α → Except ε β} :
    ∀ {xs : List α} {ys : List β}, mapE f xs = Except.ok ys →
      ∀ (i : Nat) (hi : i < xs.length) (hi' : i < ys.length),
        f (xs.get ⟨i, hi⟩) = Except.ok (ys.get ⟨i, hi'⟩) := by
  intro xs
  induction xs with
  | nil => intro ys h i hi; exact absurd hi (by simp)
  | cons x xs ih =>
    intro ys h i hi hi'
    simp only [mapE] at h
    cases hx : f x with
    | error e => rw [hx] at h; simp at h
    | ok y =>
      rw [hx] at h
      cases hxs : mapE f xs with
      | error e => rw [hxs] at h; simp at h
      | ok ys' =>
        rw [hxs] at h
        simp at h
        subst h
        cases i with
        | zero => simpa using hx
        | succ j =>
          have hj : j < xs.length := by simpa using hi
          have hj' : j < ys'.length := by simpa using hi'
          simpa using ih hxs j hj hj'

theorem mapE_ok_of_forall {α β ε : Type} {f : α → Except ε β} :
    ∀ {xs : List α}, (∀ x ∈ xs, ∃ y, f x = Except.ok y) →
      ∃ ys, mapE f xs = Except.ok ys := by
  intro xs
  induction xs with
  | nil => intro _; exact ⟨[], rfl⟩
  | cons x xs ih =>
    intro h
    obtain ⟨y, hy⟩ := h x (by simp)
    obtain ⟨ys, hys⟩ := ih (fun a ha => h a (by simp [ha]))
    exact ⟨y :: ys, by simp [mapE, hy, hys]⟩

theorem mapE_ok_mem {α β ε : Type} {f : α → Except ε β} :
    ∀ {xs : List α} {ys : List β}, mapE f xs = Except.ok ys →
      ∀ y ∈ ys, ∃ x ∈ xs, f x = Except.ok y := by
  intro xs
  induction xs with
  | nil => intro ys h y hy; simp [mapE] at h; subst h; simp at hy
  | cons x xs ih =>
    intro ys h y hy
    simp only [mapE] at h
    cases hx : f x with
    | error e => rw [hx] at h; simp at h
    | ok y' =>
      rw [hx] at h
      cases hxs : mapE f xs with
      | error e => rw [hxs] at h; simp at h
      | ok ys' =>
        rw [hxs] at h
        simp at h
        subst h
        rcases List.mem_cons.mp hy with hy | hy
        · exact ⟨x, by simp, by rw [hx, hy]⟩
        · obtain ⟨a, ha, hfa⟩ := ih hxs y hy
          exact ⟨a, by simp [ha], hfa⟩

/-! ### The shuffle is a permutation; sampling facts -/

theorem shuffleFuel_perm {α : Type} [DecidableEq α] :
    ∀ (fuel seed : Nat) (l : List α), l.length ≤ fuel →
      List.Perm (shuffleFuel fuel seed l) l := by
  intro fuel
  induction fuel with
  | zero =>
    intro seed l h
    have hl : l = [] := List.length_eq_zero.mp (Nat.le_zero.mp h)
    subst hl
    simp [shuffleFuel]
  | succ fuel ih =>
    intro seed l h
    by_cases hl : l = []
    · subst hl; simp [shuffleFuel]
    · rw [shuffleFuel, dif_neg hl]
      have hx : l.get ⟨seed % l.length, Nat.mod_lt _ (List.length_pos.mpr hl)⟩ ∈ l :=
        List.get_mem _ _ _
      have hlen : (l.erase (l.get ⟨seed % l.length, Nat.mod_lt _ (List.length_pos.mpr hl)⟩)).length ≤ fuel := by
        rw [List.length_erase_of_mem hx]
        have := List.length_pos.mpr hl
        omega
      exact ((ih (lcgNext seed) _ hlen).cons _).trans (List.perm_cons_erase hx).symm

theorem shuffle_perm {α : Type} [DecidableEq α] (seed : Nat) (l : List α) :
    List.Perm (shuffle seed l) l :=
  shuffleFuel_perm l.length seed l (Nat.le_refl _)

theorem shuffle_length {α : Type} [DecidableEq α] (seed : Nat) (l : List α) :
    (shuffle seed l).length = l.length :=
  (shuffle_perm seed l).length_eq

theorem sample_ok_inv {α : Type} [DecidableEq α] {pop : List α} {n : Option Nat}
    {rs : Option Nat} {e : Nat} {out : List α}
    (h : sample pop n rs e = Except.ok out) :
    n.getD 1 ≤ pop.length ∧ out = (shuffle (rs.getD e) pop).take (n.getD 1) := by
  unfold sample at h
  simp only [] at h
  by_cases hk : n.getD 1 ≤ pop.length
  · rw [if_pos hk] at h
    exact ⟨hk, by injection h with h'; exact h'.symm⟩
  · rw [if_neg hk] at h
    exact absurd h (by simp)

theorem sample_ok_subset {α : Type} [DecidableEq α] {pop : List α} {n : Option Nat}
    {rs : Option Nat} {e : Nat} {out : List α}
    (h : sample pop n rs e = Except.ok out) : ∀ x ∈ out, x ∈ pop := by
  obtain ⟨_, hout⟩ := sample_ok_inv h
  intro x hx
  rw [hout] at hx
  exact (shuffle_perm (rs.getD e) pop).mem_iff.mp (List.take_subset _ _ hx)

theorem sample_ok_len {α : Type} [DecidableEq α] {pop : List α} {n : Option Nat}
    {rs : Option Nat} {e : Nat} {out : List α}
    (h : sample pop n rs e = Except.ok out) : out.length = n.getD 1 := by
  obtain ⟨hle, hout⟩ := sample_ok_inv h
  rw [hout, List.length_take, shuffle_length]
  omega

theorem sample_err_of_lt {α : Type} [DecidableEq α] {pop : List α} {n : Option Nat}
    {rs : Option Nat} {e : Nat} (h : pop.length < n.getD 1) :
    sample pop n rs e = Except.error IapsError.invalidArgument := by
  unfold sample
  simp only []
  rw [if_neg]
  omega

/-! ### Inversion of the line-processing stages -/

theorem exceptBind_ok {ε α β : Type} {e : Except ε α} {f : α → Except ε β} {b : β} :
    (e >>= f) = Except.ok b ↔ ∃ a, e = Except.ok a ∧ f a = Except.ok b := by
  cases e with
  | ok a => simp [Bind.bind, Except.bind]
  | error e => simp [Bind.bind, Except.bind]

theorem isOk_iff {ε α : Type} {e : Except ε α} :
    e.isOk = true ↔ ∃ a, e = Except.ok a := by
  cases e <;> simp [Except.isOk, Except.toBool]

theorem parseLine_ok_spec {line : String} {raw : RawRow}
    (h : parseLine line = Except.ok raw) :
    ∃ hlen : (fieldsOf line).length = 11,
      raw.desc = naify ((fieldsOf line).get ⟨0, by omega⟩) ∧
      floatCell ((fieldsOf line).get ⟨1, by omega⟩) = Except.ok raw.IAPS ∧
      floatCell ((fieldsOf line).get ⟨2, by omega⟩) = Except.ok raw.valmn ∧
      floatCell ((fieldsOf line).get ⟨3, by omega⟩) = Except.ok raw.valsd ∧
      floatCell ((fieldsOf line).get ⟨4, by omega⟩) = Except.ok raw.aromn ∧
      floatCell ((fieldsOf line).get ⟨5, by omega⟩) = Except.ok raw.arosd ∧
      floatCell ((fieldsOf line).get ⟨6, by omega⟩) = Except.ok raw.dom1mn ∧
      floatCell ((fieldsOf line).get ⟨7, by omega⟩) = Except.ok raw.dom1sd ∧
      floatCell ((fieldsOf line).get ⟨8, by omega⟩) = Except.ok raw.dom2mn ∧
      floatCell ((fieldsOf line).get ⟨9, by omega⟩) = Except.ok raw.dom2sd ∧
      raw.set = naify ((fieldsOf line).get ⟨10, by omega⟩) := by
  unfold parseLine at h
  by_cases hlen : (fieldsOf line).length = 11
  · rw [dif_pos hlen] at h
    rw [exceptBind_ok] at h; obtain ⟨a1, ha1, h⟩ := h
    rw [exceptBind_ok] at h; obtain ⟨a2, ha2, h⟩ := h
    rw [exceptBind_ok] at h; obtain ⟨a3, ha3, h⟩ := h
    rw [exceptBind_ok] at h; obtain ⟨a4, ha4, h⟩ := h
    rw [exceptBind_ok] at h; obtain ⟨a5, ha5, h⟩ := h
    rw [exceptBind_ok] at h; obtain ⟨a6, ha6, h⟩ := h
    rw [exceptBind_ok] at h; obtain ⟨a7, ha7, h⟩ := h
    rw [exceptBind_ok] at h; obtain ⟨a8, ha8, h⟩ := h
    rw [exceptBind_ok] at h; obtain ⟨a9, ha9, h⟩ := h
    injection h with h
    subst h
    exact ⟨hlen, rfl, ha1, ha2, ha3, ha4, ha5, ha6, ha7, ha8, ha9, rfl⟩
  · rw [dif_neg hlen] at h
    exact absurd h (by simp)

theorem cleanSet_ok_spec {r : RawRow} {m : MidRow}
    (h : cleanSet r = Except.ok m) :
    ∃ s, r.set = some s ∧ pyInt (strDropLast s) = some m.set ∧
      m = r.withSet m.set := by
  cases hs : r.set with
  | none => simp [cleanSet, hs] at h
  | some s =>
    cases hp : pyInt (strDropLast s) with
    | none => simp [cleanSet, hs, hp] at h
    | some v =>
      simp only [cleanSet, hs, hp] at h
      injection h with h
      subst h
      exact ⟨s, rfl, hp, rfl⟩

theorem cleanIAPS_ok_spec {m : MidRow} {row : ScoringRow}
    (h : cleanIAPS m = Except.ok row) :
    ∃ d, m.IAPS = some d ∧ row = m.withIAPS (normIdent d) := by
  cases hd : m.IAPS with
  | none => simp [cleanIAPS, hd] at h
  | some d =>
    simp only [cleanIAPS, hd] at h
    injection h with h
    exact ⟨d, rfl, h.symm⟩

theorem processLine_ok_inv {line : String} {row : ScoringRow}
    (h : processLine line = Except.ok row) :
    ∃ raw mid, parseLine line = Except.ok raw ∧ cleanSet raw = Except.ok mid ∧
      cleanIAPS mid = Except.ok row := by
  cases hp : parseLine line with
  | error e => simp [processLine, hp] at h
  | ok raw =>
    cases hc : cleanSet raw with
    | error e => simp [processLine, hp, hc] at h
    | ok mid =>
      simp only [processLine, hp, hc] at h
      exact ⟨raw, mid, rfl, hc, h⟩

theorem processLine_ok_of {line : String} {raw : RawRow} {mid : MidRow}
    {row : ScoringRow} (h1 : parseLine line = Except.ok raw)
    (h2 : cleanSet raw = Except.ok mid) (h3 : cleanIAPS mid = Except.ok row) :
    processLine line = Except.ok row := by
  simp only [processLine, h1, h2, h3]

theorem readScoring_ok_inv {lines : List String} {rows : List ScoringRow}
    (h : readScoring lines = Except.ok rows) :
    ∃ raws mids, mapE parseLine (lines.drop 7) = Except.ok raws ∧
      mapE cleanSet raws = Except.ok mids ∧ mapE cleanIAPS mids = Except.ok rows := by
  cases h1 : mapE parseLine (lines.drop 7) with
  | error e => simp [readScoring, h1] at h
  | ok raws =>
    cases h2 : mapE cleanSet raws with
    | error e => simp [readScoring, h1, h2] at h
    | ok mids =>
      simp only [readScoring, h1, h2] at h
      exact ⟨raws, mids, rfl, h2, h⟩

theorem readScoring_ok_spec {lines : List String} {rows : List ScoringRow}
    (h : readScoring lines = Except.ok rows) :
    rows.length = (lines.drop 7).length ∧
    ∀ (i : Nat) (hi : i < (lines.drop 7).length) (hi' : i < rows.length),
      processLine ((lines.drop 7).get ⟨i, hi⟩) = Except.ok (rows.get ⟨i, hi'⟩) := by
  obtain ⟨raws, mids, h1, h2, h3⟩ := readScoring_ok_inv h
  have l1 := mapE_ok_length h1
  have l2 := mapE_ok_length h2
  have l3 := mapE_ok_length h3
  refine ⟨by omega, ?_⟩
  intro i hi hi'
  have e1 := mapE_ok_get h1 i hi (by omega)
  have e2 := mapE_ok_get h2 i (by omega) (by omega)
  have e3 := mapE_ok_get h3 i (by omega) hi'
  exact processLine_ok_of e1 e2 e3

theorem readScoring_ok_of_forall {lines : List String}
    (h : ∀ l ∈ lines.drop 7, (processLine l).isOk = true) :
    ∃ rows, readScoring lines = Except.ok rows := by
  have hall : ∀ l ∈ lines.drop 7, ∃ row, processLine l = Except.ok row :=
    fun l hl => isOk_iff.mp (h l hl)
  have h1 : ∃ raws, mapE parseLine (lines.drop 7) = Except.ok raws := by
    refine mapE_ok_of_forall ?_
    intro l hl
    obtain ⟨row, hrow⟩ := hall l hl
    obtain ⟨raw, mid, hp, _, _⟩ := processLine_ok_inv hrow
    exact ⟨raw, hp⟩
  obtain ⟨raws, hraws⟩ := h1
  have h2 : ∃ mids, mapE cleanSet raws = Except.ok mids := by
    refine mapE_ok_of_forall ?_
    intro raw hraw
    obtain ⟨l, hl, hpl⟩ := mapE_ok_mem hraws raw hraw
    obtain ⟨row, hrow⟩ := hall l hl
    obtain ⟨raw', mid, hp, hc, _⟩ := processLine_ok_inv hrow
    rw [hpl] at hp
    injection hp with hp
    subst hp
    exact ⟨mid, hc⟩
  obtain ⟨mids, hmids⟩ := h2
  have h3 : ∃ rows, mapE cleanIAPS mids = Except.ok rows := by
    refine mapE_ok_of_forall ?_
    intro mid hmid
    obtain ⟨raw, hraw, hcs⟩ := mapE_ok_mem hmids mid hmid
    obtain ⟨l, hl, hpl⟩ := mapE_ok_mem hraws raw hraw
    obtain ⟨row, hrow⟩ := hall l hl
    obtain ⟨raw', mid', hp, hc, hi⟩ := processLine_ok_inv hrow
    rw [hpl] at hp
    injection hp with hp
    subst hp
    rw [hcs] at hc
    injection hc with hc
    subst hc
    exact ⟨row, hi⟩
  obtain ⟨rows, hrows⟩ := h3
  refine ⟨rows, ?_⟩
  simp only [readScoring, hraws, hmids, hrows]

theorem readScoring_ok_mem {lines : List String} {rows : List ScoringRow}
    (h : readScoring lines = Except.ok rows) :
    ∀ row ∈ rows, ∃ line ∈ lines.drop 7, processLine line = Except.ok row := by
  obtain ⟨raws, mids, h1, h2, h3⟩ := readScoring_ok_inv h
  intro row hrow
  obtain ⟨mid, hmid, hi⟩ := mapE_ok_mem h3 row hrow
  obtain ⟨raw, hraw, hc⟩ := mapE_ok_mem h2 mid hmid
  obtain ⟨line, hline, hp⟩ := mapE_ok_mem h1 raw hraw
  exact ⟨line, hline, processLine_ok_of hp hc hi⟩

/-! ### Faithfulness of the decimal-cell arithmetic -/

theorem Dec.le_iff (a b : Dec) : Dec.le a b = true ↔ a.toRat ≤ b.toRat := by
  unfold Dec.le Dec.toRat
  rw [decide_eq_true_iff]
  rw [div_le_div_iff₀ (by positivity) (by positivity)]
  constructor
  · intro h; exact_mod_cast h
  · intro h; exact_mod_cast h

theorem truncQ_intCast (k : Int) : truncQ (k : ℚ) = k := by
  unfold truncQ
  split
  · exact Int.floor_intCast k
  · exact Int.ceil_intCast k

theorem Dec.toRat_of_isInt {d : Dec} (h : isIntDec d = true) :
    (truncDec d : ℚ) = d.toRat := by
  unfold isIntDec at h
  rw [decide_eq_true_iff] at h
  unfold Dec.toRat
  rw [h]
  push_cast
  rw [mul_div_assoc, div_self (by positivity), mul_one]

theorem isIntDec_iff (d : Dec) :
    isIntDec d = true ↔ (truncQ d.toRat : ℚ) = d.toRat := by
  constructor
  · intro h
    rw [← Dec.toRat_of_isInt h, truncQ_intCast]
  · intro h
    have h10 : ((10 : ℚ) ^ d.exp) ≠ 0 := by positivity
    have hq : (truncQ d.toRat : ℚ) * (10 : ℚ) ^ d.exp = (d.num : ℚ) := by
      rw [h]
      unfold Dec.toRat
      field_simp
    have hnum : truncQ d.toRat * (10 : Int) ^ d.exp = d.num := by
      exact_mod_cast hq
    have htd : truncDec d = truncQ d.toRat := by
      unfold truncDec
      rw [← hnum]
      exact Int.mul_tdiv_cancel _ (by positivity)
    unfold isIntDec
    rw [decide_eq_true_iff, htd, hnum]

theorem truncDec_of_isInt {d : Dec} (h : isIntDec d = true) :
    truncDec d = truncQ d.toRat := by
  rw [← Dec.toRat_of_isInt h, truncQ_intCast]

theorem reprLenOne : ∀ k : Nat, k < 10 → (Nat.repr k).length = 1 := by decide

theorem fmt1_shape (d : Dec) :
    ∃ (pre : String) (k : Nat), k < 10 ∧ fmt1 d = pre ++ naStr ++ Nat.repr k ∧
      (Nat.repr k).length = 1 := by
  refine ⟨(if roundHalfEvenFrac (d.num * 10) ((10 : Int) ^ d.exp) < 0 then
      String.mk ['-'] else emptyStr) ++
      Nat.repr ((roundHalfEvenFrac (d.num * 10) ((10 : Int) ^ d.exp)).natAbs / 10),
    (roundHalfEvenFrac (d.num * 10) ((10 : Int) ^ d.exp)).natAbs % 10, ?_, rfl, ?_⟩
  · exact Nat.mod_lt _ (by norm_num)
  · exact reprLenOne _ (Nat.mod_lt _ (by norm_num))

theorem normIdent_of_int {d : Dec} (h : isIntDec d = true) :
    normIdent d = Int.repr (truncDec d) := by
  simp [normIdent, h]

theorem normIdent_of_nonint {d : Dec} (h : isIntDec d = false) :
    normIdent d = fmt1 d := by
  simp [normIdent, h]

/-! ### Facts about string suffixes -/

theorem strEndsWith_append (s t : String) : strEndsWith (s ++ t) t = true := by
  unfold strEndsWith
  simp only [Bool.and_eq_true, decide_eq_true_iff]
  constructor
  · rw [String.data_append, List.length_append]
    have he : s.data.length + t.data.length - t.data.length = s.data.length := by omega
    rw [he, List.drop_left]
  · rw [String.data_append, List.length_append]; omega

theorem strEndsWith_unique {s a b : String} (ha : strEndsWith s a = true)
    (hb : strEndsWith s b = true) (hlen : a.data.length = b.data.length) :
    a = b := by
  unfold strEndsWith at ha hb
  simp only [Bool.and_eq_true, decide_eq_true_iff] at ha hb
  have hd : a.data = b.data := by rw [← ha.1, ← hb.1, hlen]
  cases a
  cases b
  exact congrArg String.mk hd

/-! ### The full field mapping of one processed line -/

theorem processLine_ok_spec {line : String} {row : ScoringRow}
    (h : processLine line = Except.ok row) :
    ∃ hlen : (fieldsOf line).length = 11,
      row.desc = naify ((fieldsOf line).get ⟨0, by omega⟩) ∧
      (∃ d, floatCell ((fieldsOf line).get ⟨1, by omega⟩) = Except.ok (some d) ∧
        row.IAPS = normIdent d) ∧
      floatCell ((fieldsOf line).get ⟨2, by omega⟩) = Except.ok row.valmn ∧
      floatCell ((fieldsOf line).get ⟨3, by omega⟩) = Except.ok row.valsd ∧
      floatCell ((fieldsOf line).get ⟨4, by omega⟩) = Except.ok row.aromn ∧
      floatCell ((fieldsOf line).get ⟨5, by omega⟩) = Except.ok row.arosd ∧
      floatCell ((fieldsOf line).get ⟨6, by omega⟩) = Except.ok row.dom1mn ∧
      floatCell ((fieldsOf line).get ⟨7, by omega⟩) = Except.ok row.dom1sd ∧
      floatCell ((fieldsOf line).get ⟨8, by omega⟩) = Except.ok row.dom2mn ∧
      floatCell ((fieldsOf line).get ⟨9, by omega⟩) = Except.ok row.dom2sd ∧
      (∃ s, naify ((fieldsOf line).get ⟨10, by omega⟩) = some s ∧
        pyInt (strDropLast s) = some row.set) := by
  obtain ⟨raw, mid, hp, hc, hi⟩ := processLine_ok_inv h
  obtain ⟨hlen, hdesc, hIAPS, hvalmn, hvalsd, haromn, harosd, hd1mn, hd1sd,
    hd2mn, hd2sd, hset⟩ := parseLine_ok_spec hp
  obtain ⟨s, hsets, hpyint, hmid⟩ := cleanSet_ok_spec hc
  obtain ⟨d, hmidIAPS, hrow⟩ := cleanIAPS_ok_spec hi
  have hrdesc : row.desc = raw.desc := by rw [hrow, hmid]; exact rfl
  have hrIAPS : raw.IAPS = some d := by
    rw [← hmidIAPS, hmid]; exact rfl
  have hrowIAPS : row.IAPS = normIdent d := by rw [hrow]; exact rfl
  have hrvalmn : row.valmn = raw.valmn := by rw [hrow, hmid]; exact rfl
  have hrvalsd : row.valsd = raw.valsd := by rw [hrow, hmid]; exact rfl
  have hraromn : row.aromn = raw.aromn := by rw [hrow, hmid]; exact rfl
  have hrarosd : row.arosd = raw.arosd := by rw [hrow, hmid]; exact rfl
  have hrd1mn : row.dom1mn = raw.dom1mn := by rw [hrow, hmid]; exact rfl
  have hrd1sd : row.dom1sd = raw.dom1sd := by rw [hrow, hmid]; exact rfl
  have hrd2mn : row.dom2mn = raw.dom2mn := by rw [hrow, hmid]; exact rfl
  have hrd2sd : row.dom2sd = raw.dom2sd := by rw [hrow, hmid]; exact rfl
  have hrset : row.set = mid.set := by rw [hrow]; exact rfl
  refine ⟨hlen, ?_, ⟨d, ?_, hrowIAPS⟩, ?_, ?_, ?_, ?_, ?_, ?_, ?_, ?_, ?_⟩
  · rw [hrdesc, hdesc]
  · rw [hIAPS, hrIAPS]
  · rw [hvalmn, hrvalmn]
  · rw [hvalsd, hrvalsd]
  · rw [haromn, hraromn]
  · rw [harosd, hrarosd]
  · rw [hd1mn, hrd1mn]
  · rw [hd1sd, hrd1sd]
  · rw [hd2mn, hrd2mn]
  · rw [hd2sd, hrd2sd]
  · exact ⟨s, by rw [← hset, hsets], by rw [hrset]; exact hpyint⟩

/-! ### Inversion of the three samplers -/

theorem sample_negative_ok_inv {lines : List String} {n : Option Nat}
    {rs : Option Nat} {t : Dec} {e : Nat} {out : List String}
    (h : sample_negative_images lines n rs t e = Except.ok out) :
    ∃ df ids, readScoring lines = Except.ok df ∧
      sample ((df.filter (negPred t)).map Row.IAPS) n rs e = Except.ok ids ∧
      out = ids.map full_filename := by
  cases hr : readScoring lines with
  | error er => simp [sample_negative_images, hr] at h
  | ok df =>
    cases hs : sample ((df.filter (negPred t)).map Row.IAPS) n rs e with
    | error er => simp [sample_negative_images, hr, hs] at h
    | ok ids =>
      simp only [sample_negative_images, hr, hs] at h
      injection h with h
      exact ⟨df, ids, rfl, hs, h.symm⟩

theorem sample_positive_ok_inv {lines : List String} {n : Option Nat}
    {rs : Option Nat} {t : Dec} {e : Nat} {out : List String}
    (h : sample_positive_images lines n rs t e = Except.ok out) :
    ∃ df ids, readScoring lines = Except.ok df ∧
      sample ((df.filter (posPred t)).map Row.IAPS) n rs e = Except.ok ids ∧
      out = ids.map full_filename := by
  cases hr : readScoring lines with
  | error er => simp [sample_positive_images, hr] at h
  | ok df =>
    cases hs : sample ((df.filter (posPred t)).map Row.IAPS) n rs e with
    | error er => simp [sample_positive_images, hr, hs] at h
    | ok ids =>
      simp only [sample_positive_images, hr, hs] at h
      injection h with h
      exact ⟨df, ids, rfl, hs, h.symm⟩

theorem sample_neutral_ok_inv {lines : List String} {n : Option Nat}
    {rs : Option Nat} {lo hi : Dec} {e : Nat} {out : List String}
    (h : sample_neutral_images lines n rs lo hi e = Except.ok out) :
    ∃ df ids, readScoring lines = Except.ok df ∧
      sample ((df.filter (neutPred lo hi)).map Row.IAPS) n rs e = Except.ok ids ∧
      out = ids.map full_filename := by
  cases hr : readScoring lines with
  | error er => simp [sample_neutral_images, hr] at h
  | ok df =>
    cases hs : sample ((df.filter (neutPred lo hi)).map Row.IAPS) n rs e with
    | error er => simp [sample_neutral_images, hr, hs] at h
    | ok ids =>
      simp only [sample_neutral_images, hr, hs] at h
      injection h with h
      exact ⟨df, ids, rfl, hs, h.symm⟩

/-! ### The claims -/

/-- C4: for every identifier string, `full_filename` returns the images
directory joined with the identifier plus an extension, where the
extension is `.JPG` exactly when the identifier is one of the four
strings 6570, 6570.1, 6561, 6560, and `.jpg` otherwise; in particular
the filename for 6570.1 ends with `.JPG` and the one for 1000 ends with
`.jpg`. -/
theorem C4_full_filename_extension :
    ∀ name : String,
      (full_filename name =
        pathJoin (pathJoin IAPS_DIR imagesDirName) name ++
          (if name ∈ jpgExceptions then jpgUpper else jpgLower)) ∧
      (strEndsWith (full_filename name) jpgUpper = true ↔ name ∈ jpgExceptions) ∧
      strEndsWith (full_filename str6570_1) jpgUpper = true ∧
      strEndsWith (full_filename name1000) jpgLower = true := by
  intro name
  refine ⟨?_, ⟨?_, ?_⟩, by decide, by decide⟩
  · by_cases h : name ∈ jpgExceptions
    · simp [full_filename, h]
    · simp [full_filename, h]
  · intro hJ
    by_contra hmem
    have hf : full_filename name =
        pathJoin (pathJoin IAPS_DIR imagesDirName) name ++ jpgLower := by
      simp [full_filename, hmem]
    rw [hf] at hJ
    have hL := strEndsWith_append (pathJoin (pathJoin IAPS_DIR imagesDirName) name) jpgLower
    have heq := strEndsWith_unique hJ hL (by decide)
    exact absurd heq (by decide)
  · intro hmem
    have hf : full_filename name =
        pathJoin (pathJoin IAPS_DIR imagesDirName) name ++ jpgUpper := by
      simp [full_filename, hmem]
    rw [hf]
    exact strEndsWith_append _ _

/-- C10: `full_filename` is total over arbitrary identifier strings and
decides the extension by exact string equality with the four exception
literals, with no numeric normalization: the identifier 6570.0,
numerically equal to 6570 but not literally one of the four strings,
gets the lower-case extension, and every result ends in `.jpg` or
`.JPG`. -/
theorem C10_extension_by_exact_match :
    (∀ name : String, ∃ stem : String,
        full_filename name = stem ++ jpgLower ∨ full_filename name = stem ++ jpgUpper) ∧
    full_filename name6570_0 =
      pathJoin (pathJoin IAPS_DIR imagesDirName) name6570_0 ++ jpgLower ∧
    strEndsWith (full_filename name6570_0) jpgLower = true ∧
    name6570_0 ∉ jpgExceptions := by
  refine ⟨?_, by decide, by decide, by decide⟩
  intro name
  refine ⟨pathJoin (pathJoin IAPS_DIR imagesDirName) name, ?_⟩
  by_cases h : name ∈ jpgExceptions
  · right; simp [full_filename, h]
  · left; simp [full_filename, h]

/-- C6: each sampler is deterministic given a seed: with the same source
lines, the same `n` and the same `random_state`, the ambient entropy of
the global random state does not influence the result, so two such calls
return identical output sequences. -/
theorem C6_seeded_determinism :
    ∀ (lines : List String) (n : Option Nat) (s : Nat) (t lo hi : Dec)
      (e1 e2 : Nat),
      sample_negative_images lines n (some s) t e1 =
        sample_negative_images lines n (some s) t e2 ∧
      sample_positive_images lines n (some s) t e1 =
        sample_positive_images lines n (some s) t e2 ∧
      sample_neutral_images lines n (some s) lo hi e1 =
        sample_neutral_images lines n (some s) lo hi e2 :=
  fun _ _ _ _ _ _ _ _ => ⟨rfl, rfl, rfl⟩

/-- C1 counterexample: on a file with three qualifying negative rows,
calling the negative sampler with `n` omitted returns one filename, not
the full qualifying population of three. -/
theorem C1_counterexample :
    Except.map List.length
        (sample_negative_images exampleLines none (some 0) decThree 0) =
      Except.ok 1 ∧
    Except.map (fun rows => (rows.filter (negPred decThree)).length)
        (readScoring exampleLines) = Except.ok 3 :=
  ⟨by decide, by decide⟩

/-- C1 amended: when the sample size `n` is omitted, every sampler entry
point that returns successfully returns a random subset of size exactly
one (the pandas `sample` default size), not the full qualifying
population. -/
theorem C1_default_sample_size :
    (∀ (lines : List String) (rs : Option Nat) (t : Dec) (e : Nat)
       (out : List String),
       sample_negative_images lines none rs t e = Except.ok out →
       out.length = 1) ∧
    (∀ (lines : List String) (rs : Option Nat) (t : Dec) (e : Nat)
       (out : List String),
       sample_positive_images lines none rs t e = Except.ok out →
       out.length = 1) ∧
    (∀ (lines : List String) (rs : Option Nat) (lo hi : Dec) (e : Nat)
       (out : List String),
       sample_neutral_images lines none rs lo hi e = Except.ok out →
       out.length = 1) := by
  refine ⟨?_, ?_, ?_⟩
  · intro lines rs t e out h
    obtain ⟨df, ids, hr, hs, hout⟩ := sample_negative_ok_inv h
    rw [hout, List.length_map]
    simpa using sample_ok_len hs
  · intro lines rs t e out h
    obtain ⟨df, ids, hr, hs, hout⟩ := sample_positive_ok_inv h
    rw [hout, List.length_map]
    simpa using sample_ok_len hs
  · intro lines rs lo hi e out h
    obtain ⟨df, ids, hr, hs, hout⟩ := sample_neutral_ok_inv h
    rw [hout, List.length_map]
    simpa using sample_ok_len hs

/-- C1 witness: the amended statement applied to the synthetic file. -/
theorem C1_default_sample_size_witness :
    ∃ out, sample_negative_images exampleLines none (some 0) decThree 0 =
      Except.ok out ∧ out.length = 1 :=
  ⟨[full_filename ident1050], by decide,
    C1_default_sample_size.1 exampleLines (some 0) decThree 0
      [full_filename ident1050] (by decide)⟩

/-- C5 counterexample: a row whose identifier field is the missing-value
marker makes `readScoring` fail, against the claim that the marker is
accepted in any of the 11 columns. -/
theorem C5_counterexample :
    readScoring dotIdentLines = Except.error IapsError.valueError := by decide

/-- C5 amended: the missing-value marker is treated as absent without
failure in the description column and the eight score columns; a marker
in the identifier column fails the identifier cleanup with a value
error, and one in the set column fails the set cleanup with a type
error. -/
theorem C5_na_marker_columns :
    floatCell naStr = Except.ok none ∧
    naify naStr = none ∧
    (∀ m : MidRow, m.IAPS = none →
      cleanIAPS m = Except.error IapsError.valueError) ∧
    (∀ r : RawRow, r.set = none →
      cleanSet r = Except.error IapsError.typeError) ∧
    readScoring dotScoresLines = Except.ok [dotScoresRow] ∧
    readScoring dotSetLines = Except.error IapsError.typeError := by
  refine ⟨by decide, by decide, ?_, ?_, by decide, by decide⟩
  · intro m hm
    simp [cleanIAPS, hm]
  · intro r hr
    simp [cleanSet, hr]

/-- C5 witness: the amended failure cases applied to concrete rows with
missing identifier and missing set fields. -/
theorem C5_na_marker_columns_witness :
    cleanIAPS midRowNA = Except.error IapsError.valueError ∧
    cleanSet rawRowNA = Except.error IapsError.typeError :=
  ⟨C5_na_marker_columns.2.2.1 midRowNA rfl,
   C5_na_marker_columns.2.2.2.1 rawRowNA rfl⟩

/-- C2: every filename a sampler returns comes from a scoring-table row
whose valence mean satisfies the valence predicate: at most the
threshold for the negative sampler, at least the threshold for the
positive sampler, and between the two thresholds for the neutral
sampler. -/
theorem C2_sampled_valence_within_threshold :
    (∀ (lines : List String) (n rs : Option Nat) (t : Dec) (e : Nat)
       (out : List String),
       sample_negative_images lines n rs t e = Except.ok out →
       ∀ fn ∈ out, ∃ rows, readScoring lines = Except.ok rows ∧
         ∃ row ∈ rows, fn = full_filename row.IAPS ∧
           ∃ v, row.valmn = some v ∧ v.toRat ≤ t.toRat) ∧
    (∀ (lines : List String) (n rs : Option Nat) (t : Dec) (e : Nat)
       (out : List String),
       sample_positive_images lines n rs t e = Except.ok out →
       ∀ fn ∈ out, ∃ rows, readScoring lines = Except.ok rows ∧
         ∃ row ∈ rows, fn = full_filename row.IAPS ∧
           ∃ v, row.valmn = some v ∧ t.toRat ≤ v.toRat) ∧
    (∀ (lines : List String) (n rs : Option Nat) (lo hi : Dec) (e : Nat)
       (out : List String),
       sample_neutral_images lines n rs lo hi e = Except.ok out →
       ∀ fn ∈ out, ∃ rows, readScoring lines = Except.ok rows ∧
         ∃ row ∈ rows, fn = full_filename row.IAPS ∧
           ∃ v, row.valmn = some v ∧ lo.toRat ≤ v.toRat ∧ v.toRat ≤ hi.toRat) := by
  refine ⟨?_, ?_, ?_⟩
  · intro lines n rs t e out h fn hfn
    obtain ⟨df, ids, hr, hs, hout⟩ := sample_negative_ok_inv h
    subst hout
    obtain ⟨id, hid, hfn'⟩ := List.mem_map.mp hfn
    obtain ⟨row, hrowf, hrowid⟩ := List.mem_map.mp (sample_ok_subset hs id hid)
    obtain ⟨hrowdf, hpred⟩ := List.mem_filter.mp hrowf
    refine ⟨df, hr, row, hrowdf, by rw [← hfn', hrowid], ?_⟩
    cases hv : row.valmn with
    | none => simp [negPred, hv] at hpred
    | some v =>
      simp only [negPred, hv] at hpred
      exact ⟨v, rfl, (Dec.le_iff v t).mp hpred⟩
  · intro lines n rs t e out h fn hfn
    obtain ⟨df, ids, hr, hs, hout⟩ := sample_positive_ok_inv h
    subst hout
    obtain ⟨id, hid, hfn'⟩ := List.mem_map.mp hfn
    obtain ⟨row, hrowf, hrowid⟩ := List.mem_map.mp (sample_ok_subset hs id hid)
    obtain ⟨hrowdf, hpred⟩ := List.mem_filter.mp hrowf
    refine ⟨df, hr, row, hrowdf, by rw [← hfn', hrowid], ?_⟩
    cases hv : row.valmn with
    | none => simp [posPred, hv] at hpred
    | some v =>
      simp only [posPred, hv] at hpred
      exact ⟨v, rfl, (Dec.le_iff t v).mp hpred⟩
  · intro lines n rs lo hi e out h fn hfn
    obtain ⟨df, ids, hr, hs, hout⟩ := sample_neutral_ok_inv h
    subst hout
    obtain ⟨id, hid, hfn'⟩ := List.mem_map.mp hfn
    obtain ⟨row, hrowf, hrowid⟩ := List.mem_map.mp (sample_ok_subset hs id hid)
    obtain ⟨hrowdf, hpred⟩ := List.mem_filter.mp hrowf
    refine ⟨df, hr, row, hrowdf, by rw [← hfn', hrowid], ?_⟩
    cases hv : row.valmn with
    | none => simp [neutPred, hv] at hpred
    | some v =>
      simp only [neutPred, hv, Bool.and_eq_true] at hpred
      exact ⟨v, rfl, (Dec.le_iff lo v).mp hpred.1, (Dec.le_iff v hi).mp hpred.2⟩

/-- C2 witness: the three predicate guarantees applied to concrete
sampler calls on the synthetic file. -/
theorem C2_sampled_valence_within_threshold_witness :
    (∀ fn ∈ [full_filename ident1050],
      ∃ rows, readScoring exampleLines = Except.ok rows ∧
        ∃ row ∈ rows, fn = full_filename row.IAPS ∧
          ∃ v, row.valmn = some v ∧ v.toRat ≤ decThree.toRat) ∧
    (∀ fn ∈ [full_filename ident1710],
      ∃ rows, readScoring exampleLines = Except.ok rows ∧
        ∃ row ∈ rows, fn = full_filename row.IAPS ∧
          ∃ v, row.valmn = some v ∧ decSeven.toRat ≤ v.toRat) ∧
    (∀ fn ∈ [full_filename ident7010],
      ∃ rows, readScoring exampleLines = Except.ok rows ∧
        ∃ row ∈ rows, fn = full_filename row.IAPS ∧
          ∃ v, row.valmn = some v ∧ decFour.toRat ≤ v.toRat ∧ v.toRat ≤ decSix.toRat) :=
  ⟨C2_sampled_valence_within_threshold.1 exampleLines (some 1) (some 0) decThree 0
      [full_filename ident1050] (by decide),
   C2_sampled_valence_within_threshold.2.1 exampleLines (some 1) (some 3) decSeven 0
      [full_filename ident1710] (by decide),
   C2_sampled_valence_within_threshold.2.2 exampleLines (some 1) (some 0) decFour decSix 0
      [full_filename ident7010] (by decide)⟩

/-- C7: requesting more filenames than there are qualifying rows makes
each sampler fail with the invalid-argument error (sampling is without
replacement), and an error from the reader is propagated to the caller
unchanged. -/
theorem C7_oversample_and_reader_errors :
    (∀ (lines : List String) (rows : List ScoringRow) (n : Nat)
       (rs : Option Nat) (t : Dec) (e : Nat),
       readScoring lines = Except.ok rows →
       (rows.filter (negPred t)).length < n →
       sample_negative_images lines (some n) rs t e =
         Except.error IapsError.invalidArgument) ∧
    (∀ (lines : List String) (rows : List ScoringRow) (n : Nat)
       (rs : Option Nat) (t : Dec) (e : Nat),
       readScoring lines = Except.ok rows →
       (rows.filter (posPred t)).length < n →
       sample_positive_images lines (some n) rs t e =
         Except.error IapsError.invalidArgument) ∧
    (∀ (lines : List String) (rows : List ScoringRow) (n : Nat)
       (rs : Option Nat) (lo hi : Dec) (e : Nat),
       readScoring lines = Except.ok rows →
       (rows.filter (neutPred lo hi)).length < n →
       sample_neutral_images lines (some n) rs lo hi e =
         Except.error IapsError.invalidArgument) ∧
    (∀ (lines : List String) (n rs : Option Nat) (t : Dec) (e : Nat)
       (er : IapsError),
       readScoring lines = Except.error er →
       sample_negative_images lines n rs t e = Except.error er) ∧
    (∀ (lines : List String) (n rs : Option Nat) (t : Dec) (e : Nat)
       (er : IapsError),
       readScoring lines = Except.error er →
       sample_positive_images lines n rs t e = Except.error er) ∧
    (∀ (lines : List String) (n rs : Option Nat) (lo hi : Dec) (e : Nat)
       (er : IapsError),
       readScoring lines = Except.error er →
       sample_neutral_images lines n rs lo hi e = Except.error er) := by
  refine ⟨?_, ?_, ?_, ?_, ?_, ?_⟩
  · intro lines rows n rs t e hr hlt
    have herr := @sample_err_of_lt String _ ((rows.filter (negPred t)).map Row.IAPS)
      (some n) rs e (by simpa [List.length_map] using hlt)
    simp [sample_negative_images, hr, herr]
  · intro lines rows n rs t e hr hlt
    have herr := @sample_err_of_lt String _ ((rows.filter (posPred t)).map Row.IAPS)
      (some n) rs e (by simpa [List.length_map] using hlt)
    simp [sample_positive_images, hr, herr]
  · intro lines rows n rs lo hi e hr hlt
    have herr := @sample_err_of_lt String _ ((rows.filter (neutPred lo hi)).map Row.IAPS)
      (some n) rs e (by simpa [List.length_map] using hlt)
    simp [sample_neutral_images, hr, herr]
  · intro lines n rs t e er herr
    simp [sample_negative_images, herr]
  · intro lines n rs t e er herr
    simp [sample_positive_images, herr]
  · intro lines n rs lo hi e er herr
    simp [sample_neutral_images, herr]

/-- C7 witness: an oversized request on a one-row file fails with the
invalid-argument error, and a malformed file's parse error reaches the
caller unchanged. -/
theorem C7_oversample_and_reader_errors_witness :
    sample_negative_images singleLines (some 5) none decThree 0 =
      Except.error IapsError.invalidArgument ∧
    sample_negative_images malformedLines none none decThree 0 =
      Except.error IapsError.parseError :=
  ⟨C7_oversample_and_reader_errors.1 singleLines [exampleRow] 5 none decThree 0
      (by decide) (by decide),
   C7_oversample_and_reader_errors.2.2.2.1 malformedLines none none decThree 0
      IapsError.parseError (by decide)⟩

/-- C8: for every row parsed by `readScoring`, the set value equals the
integer conversion of the raw set field with exactly its last character
removed, and the stored value is an integer. -/
theorem C8_set_number_cleanup :
    ∀ (lines : List String) (rows : List ScoringRow),
      readScoring lines = Except.ok rows →
      ∀ (i : Nat) (hi : i < rows.length) (hj : i < (lines.drop 7).length),
        ∃ hlen : (fieldsOf ((lines.drop 7).get ⟨i, hj⟩)).length = 11,
        ∃ s : String,
          naify ((fieldsOf ((lines.drop 7).get ⟨i, hj⟩)).get ⟨10, by omega⟩) =
            some s ∧
          pyInt (strDropLast s) = some (rows.get ⟨i, hi⟩).set := by
  intro lines rows h i hi hj
  have hline := (readScoring_ok_spec h).2 i hj hi
  obtain ⟨hlen, _, _, _, _, _, _, _, _, _, _, hset⟩ := processLine_ok_spec hline
  obtain ⟨s, hnf, hpy⟩ := hset
  exact ⟨hlen, s, hnf, hpy⟩

/-- C8 witness: the set cleanup applied to the one-row synthetic file. -/
theorem C8_set_number_cleanup_witness :
    ∃ hlen : (fieldsOf ((singleLines.drop 7).get ⟨0, by decide⟩)).length = 11,
    ∃ s : String,
      naify ((fieldsOf ((singleLines.drop 7).get ⟨0, by decide⟩)).get
          ⟨10, by omega⟩) = some s ∧
      pyInt (strDropLast s) = some (([exampleRow].get ⟨0, by decide⟩).set) :=
  C8_set_number_cleanup singleLines [exampleRow] (by decide) 0 (by decide) (by decide)

/-- C9: for every valid input file, `readScoring` skips exactly the
first 7 lines and returns a table with one row per remaining line, each
row mapped positionally to the 11 named fields of its line. -/
theorem C9_header_skip_row_count :
    (∀ lines : List String,
       (∀ l ∈ lines.drop 7, (processLine l).isOk = true) →
       ∃ rows, readScoring lines = Except.ok rows ∧
         rows.length = (lines.drop 7).length ∧
         ∀ (i : Nat) (hi : i < (lines.drop 7).length) (hi' : i < rows.length),
           processLine ((lines.drop 7).get ⟨i, hi⟩) =
             Except.ok (rows.get ⟨i, hi'⟩)) ∧
    (∀ (line : String) (row : ScoringRow), processLine line = Except.ok row →
       ∃ hlen : (fieldsOf line).length = 11,
         row.desc = naify ((fieldsOf line).get ⟨0, by omega⟩) ∧
         (∃ d, floatCell ((fieldsOf line).get ⟨1, by omega⟩) =
             Except.ok (some d) ∧ row.IAPS = normIdent d) ∧
         floatCell ((fieldsOf line).get ⟨2, by omega⟩) = Except.ok row.valmn ∧
         floatCell ((fieldsOf line).get ⟨3, by omega⟩) = Except.ok row.valsd ∧
         floatCell ((fieldsOf line).get ⟨4, by omega⟩) = Except.ok row.aromn ∧
         floatCell ((fieldsOf line).get ⟨5, by omega⟩) = Except.ok row.arosd ∧
         floatCell ((fieldsOf line).get ⟨6, by omega⟩) = Except.ok row.dom1mn ∧
         floatCell ((fieldsOf line).get ⟨7, by omega⟩) = Except.ok row.dom1sd ∧
         floatCell ((fieldsOf line).get ⟨8, by omega⟩) = Except.ok row.dom2mn ∧
         floatCell ((fieldsOf line).get ⟨9, by omega⟩) = Except.ok row.dom2sd ∧
         (∃ s, naify ((fieldsOf line).get ⟨10, by omega⟩) = some s ∧
           pyInt (strDropLast s) = some row.set)) := by
  constructor
  · intro lines hv
    obtain ⟨rows, hrows⟩ := readScoring_ok_of_forall hv
    obtain ⟨hlen, hpt⟩ := readScoring_ok_spec hrows
    exact ⟨rows, hrows, hlen, hpt⟩
  · intro line row h
    exact processLine_ok_spec h

/-- C9 witness: the row count of the six-row synthetic file. -/
theorem C9_header_skip_row_count_witness :
    ∃ rows, readScoring exampleLines = Except.ok rows ∧
      rows.length = (exampleLines.drop 7).length := by
  obtain ⟨rows, h1, h2, _⟩ := C9_header_skip_row_count.1 exampleLines (by decide)
  exact ⟨rows, h1, h2⟩

/-- C3: the identifier of every parsed row is the normalization of its
raw numeric value: when the value's integer truncation equals the value
exactly the identifier is the integer's decimal string (9941.0 renders
as 9941), otherwise it is rendered with exactly one digit after the
decimal point (6570.1 renders as 6570.1). -/
theorem C3_identifier_normalization :
    (∀ d : Dec, isIntDec d = true ↔ (truncQ d.toRat : ℚ) = d.toRat) ∧
    (∀ d : Dec, (truncQ d.toRat : ℚ) = d.toRat →
       normIdent d = Int.repr (truncQ d.toRat)) ∧
    (∀ d : Dec, (truncQ d.toRat : ℚ) ≠ d.toRat →
       ∃ (pre : String) (k : Nat), k < 10 ∧
         normIdent d = pre ++ naStr ++ Nat.repr k ∧ (Nat.repr k).length = 1) ∧
    (∀ (lines : List String) (rows : List ScoringRow),
       readScoring lines = Except.ok rows → ∀ row ∈ rows,
       ∃ line ∈ lines.drop 7, ∃ hlen : (fieldsOf line).length = 11,
       ∃ d : Dec,
         floatCell ((fieldsOf line).get ⟨1, by omega⟩) = Except.ok (some d) ∧
         row.IAPS = normIdent d) ∧
    normIdent dec9941_0 = str9941 ∧
    normIdent dec6570_1 = str6570_1 := by
  refine ⟨fun d => isIntDec_iff d, ?_, ?_, ?_, by decide, by decide⟩
  · intro d h
    have hb := (isIntDec_iff d).mpr h
    rw [normIdent_of_int hb, truncDec_of_isInt hb]
  · intro d h
    cases hb : isIntDec d with
    | true => exact absurd ((isIntDec_iff d).mp hb) h
    | false =>
      rw [normIdent_of_nonint hb]
      exact fmt1_shape d
  · intro lines rows hr row hrow
    obtain ⟨line, hline, hpl⟩ := readScoring_ok_mem hr row hrow
    obtain ⟨hlen, _, hIAPS, _⟩ := processLine_ok_spec hpl
    obtain ⟨d, hfc, hni⟩ := hIAPS
    exact ⟨line, hline, hlen, d, hfc, hni⟩

/-- C3 witness: both normalization branches and the end-to-end identifier
provenance, at concrete values. -/
theorem C3_identifier_normalization_witness :
    normIdent dec9941_0 = Int.repr (truncQ dec9941_0.toRat) ∧
    (∃ (pre : String) (k : Nat), k < 10 ∧
      normIdent dec6570_1 = pre ++ naStr ++ Nat.repr k ∧
      (Nat.repr k).length = 1) ∧
    (∃ line ∈ singleLines.drop 7, ∃ hlen : (fieldsOf line).length = 11,
     ∃ d : Dec,
       floatCell ((fieldsOf line).get ⟨1, by omega⟩) = Except.ok (some d) ∧
       exampleRow.IAPS = normIdent d) := by
  refine ⟨?_, ?_, ?_⟩
  · exact C3_identifier_normalization.2.1 dec9941_0
      ((isIntDec_iff dec9941_0).mp (by decide))
  · exact C3_identifier_normalization.2.2.1 dec6570_1
      (fun hc => absurd ((isIntDec_iff dec6570_1).mpr hc) (by decide))
  · exact C3_identifier_normalization.2.2.2.1 singleLines [exampleRow]
      (by decide) exampleRow (by decide)

end Iaps
